import Mathlib

/-!
# Chorus core: shallow embedding and verification

A shallow embedding of the Chorus multi-agent orchestration runtime
(`@chorus/core`), translated from the TypeScript sources:

* `validation.ts`        — `validateJsonSchema`, `validateInput`
* `agent.ts`             — `createAgent` (the bounded tool-use loop),
                           `executeToolCall`
* `context.ts`           — `createContext` (shared context: data map,
                           history, per-agent messages; snapshot /
                           restore / clone)
* `conductor/strategies` — the parallel conductor's error handling and
                           `mergeResults`, and the ranked (IRV) branch of
                           the voting conductor's `tallyVotes` plus its
                           quorum check.

JavaScript `Map`s are modelled as insertion-ordered association lists
(JS `Map` iteration follows insertion order).  JS numbers appearing in
the modelled logic are rationals (`ℚ`) — every float value is an exact
rational, and all comparisons performed by the modelled code are exact.
Asynchrony, hooks, timeouts and cancellation are not modelled; the
parallel conductor is modelled over an explicit completion order.
Fallible code returns `Except`.
-/

namespace Chorus

/-! ## JSON values (tool arguments and results) -/

/-- A JSON value.  Numbers are modelled as rationals; object fields are
kept in insertion order. -/
inductive Json where
  | null : Json
  | bool (b : Bool) : Json
  | num (q : ℚ) : Json
  | str (s : String) : Json
  | arr (elems : List Json) : Json
  | obj (fields : List (String × Json)) : Json
  deriving Repr

/-- Escape one character as inside a JSON string literal
(`JSON.stringify` semantics for the characters that occur here). -/
def jsonEscapeChar (c : Char) : String :=
  if c = '"' then "\\\""
  else if c = '\\' then "\\\\"
  else if c = '\n' then "\\n"
  else if c = '\r' then "\\r"
  else if c = '\t' then "\\t"
  else String.singleton c

/-- Escape a string as inside a JSON string literal. -/
def jsonEscape (s : String) : String :=
  String.join (s.toList.map jsonEscapeChar)

mutual

/-- Serialize a JSON value (`JSON.stringify`; number rendering is the
`toString` of the rational, a modelling choice). -/
def jsonStringify : Json → String
  | Json.null => "null"
  | Json.bool true => "true"
  | Json.bool false => "false"
  | Json.num q => toString q
  | Json.str s => "\"" ++ jsonEscape s ++ "\""
  | Json.arr elems =>
      "[" ++ String.intercalate "," (jsonStringifyList elems) ++ "]"
  | Json.obj fields =>
      "\x7b" ++ String.intercalate "," (jsonStringifyFields fields) ++ "\x7d"

/-- Serialize every element of a JSON array. -/
def jsonStringifyList : List Json → List String
  | [] => []
  | v :: vs => jsonStringify v :: jsonStringifyList vs

/-- Serialize every field of a JSON object. -/
def jsonStringifyFields : List (String × Json) → List String
  | [] => []
  | (k, v) :: fs =>
      ("\"" ++ jsonEscape k ++ "\":" ++ jsonStringify v) :: jsonStringifyFields fs

end

/-- `getJsonType` from `validation.ts`: the `typeof`-style tag used by
the schema validator (`null`, `array`, `number`, `string`, `boolean`,
`object`). -/
def getJsonType : Json → String
  | Json.null => "null"
  | Json.arr _ => "array"
  | Json.num _ => "number"
  | Json.str _ => "string"
  | Json.bool _ => "boolean"
  | Json.obj _ => "object"

/-- Is this JSON value a JS integer (`Number.isInteger`)? -/
def Json.isIntegerNum : Json → Bool
  | Json.num q => q.den = 1
  | _ => false

/-- First binding of a key in a JSON object field list (JS property
lookup; records have unique keys). -/
def jsonLookup (fields : List (String × Json)) (key : String) : Option Json :=
  (fields.find? fun p => p.1 = key).map Prod.snd

/-! ## JSON-Schema validation (`validation.ts`) -/

/-- Per-property schema (`PropertySchema` in `validation.ts`).  The
regular-expression test for `pattern` is abstracted by the Boolean
oracle `rtest` passed to the validator (the source builds a `RegExp` and
calls `.test`; invalid patterns are skipped there, which the oracle can
also model). -/
inductive PropSchema where
  | mk (type? : Option String) (enum? : Option (List Json))
      (minimum? maximum? : Option ℚ)
      (minLength? maxLength? : Option Nat)
      (pattern? : Option String)
      (items? : Option PropSchema) : PropSchema

def PropSchema.type? : PropSchema → Option String
  | PropSchema.mk t _ _ _ _ _ _ _ => t

def PropSchema.enum? : PropSchema → Option (List Json)
  | PropSchema.mk _ e _ _ _ _ _ _ => e

def PropSchema.minimum? : PropSchema → Option ℚ
  | PropSchema.mk _ _ lo _ _ _ _ _ => lo

def PropSchema.maximum? : PropSchema → Option ℚ
  | PropSchema.mk _ _ _ hi _ _ _ _ => hi

def PropSchema.minLength? : PropSchema → Option Nat
  | PropSchema.mk _ _ _ _ lo _ _ _ => lo

def PropSchema.maxLength? : PropSchema → Option Nat
  | PropSchema.mk _ _ _ _ _ hi _ _ => hi

def PropSchema.pattern? : PropSchema → Option String
  | PropSchema.mk _ _ _ _ _ _ p _ => p

def PropSchema.items? : PropSchema → Option PropSchema
  | PropSchema.mk _ _ _ _ _ _ _ i => i

/-- A property schema with only a `type` constraint. -/
def PropSchema.ofType (t : String) : PropSchema :=
  PropSchema.mk (some t) none none none none none none none

/-- Top-level tool-parameter schema (`JsonSchema` in `types/tool.ts`):
`type: "object"` with `properties`, `required`,
`additionalProperties`. -/
structure JsonSchema where
  properties : List (String × PropSchema)
  required : List String := []
  additionalProperties : Option Bool := none

/-- Result type of the validator. -/
structure ValidationResult where
  valid : Bool
  errors : List String
  deriving Repr, DecidableEq

mutual

/-- JSON equality as used by `Array.prototype.includes` on enums; for the
primitive enum members the source intends this is value equality
(structural equality here is the modelling choice for the object case). -/
def jsonBeq : Json → Json → Bool
  | Json.null, Json.null => true
  | Json.bool a, Json.bool b => a = b
  | Json.num a, Json.num b => a = b
  | Json.str a, Json.str b => a = b
  | Json.arr a, Json.arr b => jsonBeqList a b
  | Json.obj a, Json.obj b => jsonBeqFields a b
  | _, _ => false

/-- Element-wise JSON equality of arrays. -/
def jsonBeqList : List Json → List Json → Bool
  | [], [] => true
  | v :: vs, w :: ws => jsonBeq v w && jsonBeqList vs ws
  | _, _ => false

/-- Field-wise JSON equality of objects. -/
def jsonBeqFields : List (String × Json) → List (String × Json) → Bool
  | [], [] => true
  | (k, v) :: fs, (l, w) :: gs => k = l && jsonBeq v w && jsonBeqFields fs gs
  | _, _ => false

end

mutual

/-- `validateProperty` from `validation.ts`: validate one value against a
per-property schema, reporting error strings under `path`.  `rtest`
decides the regex `pattern` test. -/
def validateProperty (rtest : String → String → Bool) :
    Json → PropSchema → String → List String
  | value, schema, path =>
    -- Type validation (with the number-for-integer allowance); a type
    -- mismatch short-circuits the remaining checks.
    let typeErrors : List String :=
      match schema.type? with
      | some t =>
          if t = getJsonType value then []
          else if t = "integer" && getJsonType value = "number"
              && value.isIntegerNum then []
          else [path ++ ": expected " ++ t ++ ", got " ++ getJsonType value]
      | none => []
    if typeErrors ≠ [] then typeErrors
    else
      let enumErrors : List String :=
        match schema.enum? with
        | some vs =>
            if vs.any (jsonBeq · value) then []
            else [path ++ ": must be one of [" ++
              String.intercalate ", " (vs.map jsonStringify) ++ "]"]
        | none => []
      let numErrors : List String :=
        match value with
        | Json.num q =>
            (match schema.minimum? with
              | some lo => if q < lo then [path ++ ": must be >= " ++ toString lo] else []
              | none => []) ++
            (match schema.maximum? with
              | some hi => if hi < q then [path ++ ": must be <= " ++ toString hi] else []
              | none => [])
        | _ => []
      let strErrors : List String :=
        match value with
        | Json.str s =>
            (match schema.minLength? with
              | some lo => if s.length < lo then
                  [path ++ ": must have at least " ++ toString lo ++ " characters"] else []
              | none => []) ++
            (match schema.maxLength? with
              | some hi => if hi < s.length then
                  [path ++ ": must have at most " ++ toString hi ++ " characters"] else []
              | none => []) ++
            (match schema.pattern? with
              | some p => if rtest p s then []
                  else [path ++ ": must match pattern " ++ p]
              | none => [])
        | _ => []
      let itemErrors : List String :=
        match value, schema.items? with
        | Json.arr elems, some itemSchema =>
            validateItems rtest elems itemSchema path 0
        | _, _ => []
      enumErrors ++ numErrors ++ strErrors ++ itemErrors

/-- Validate each element of an array against the `items` schema, with
indexed paths (the `for` loop of the array branch in the source). -/
def validateItems (rtest : String → String → Bool) :
    List Json → PropSchema → String → Nat → List String
  | [], _, _, _ => []
  | v :: vs, itemSchema, path, i =>
      validateProperty rtest v itemSchema
        (path ++ "[" ++ toString i ++ "]") ++
      validateItems rtest vs itemSchema path (i + 1)

end

/-- `validateJsonSchema` from `validation.ts`: validate a tool-argument
value against the tool's top-level object schema. -/
def validateJsonSchema (rtest : String → String → Bool) (value : Json)
    (schema : JsonSchema) : ValidationResult :=
  match value with
  | Json.obj fields =>
      let requiredErrors :=
        schema.required.filterMap fun field =>
          if (jsonLookup fields field).isSome then none
          else some ("Missing required field: " ++ field)
      let propertyErrors :=
        (schema.properties.map fun p =>
          match jsonLookup fields p.1 with
          | some v => validateProperty rtest v p.2 p.1
          | none => []).flatten
      let additionalErrors :=
        if schema.additionalProperties = some false then
          fields.filterMap fun p =>
            if (schema.properties.map Prod.fst).contains p.1 then none
            else some ("Unexpected property: " ++ p.1)
        else []
      let errors := requiredErrors ++ propertyErrors ++ additionalErrors
      { valid := errors.isEmpty, errors := errors }
  | _ => { valid := false, errors := ["Expected an object"] }

/-- Result of `validateInput` (`{ valid, error? }` in the source). -/
structure InputCheck where
  valid : Bool
  error? : Option String
  deriving Repr, DecidableEq

/-- `validateInput` from `validation.ts`: length validation of the run
input (the `typeof input !== "string"` branch cannot fire in the typed
model; the default maximum length is 100000). -/
def validateInput (input : String) (maxLength : Option Nat) : InputCheck :=
  let maxLen := maxLength.getD 100000
  if input.length = 0 then
    { valid := false, error? := some "Input cannot be empty" }
  else if maxLen < input.length then
    { valid := false,
      error? := some ("Input exceeds maximum length of " ++ toString maxLen ++
        " characters") }
  else { valid := true, error? := none }

/-! ## Messages, tools and the agent loop (`types/message.ts`,
`types/tool.ts`, `agent.ts`) -/

/-- A tool call requested by an assistant message
(`{id, name, arguments}`). -/
structure ToolCall where
  id : String
  name : String
  arguments : Json
  deriving Repr

/-- The canonical message variant.  The TS `assistant` content is
`string | null` (here `Option String`) and its optional `toolCalls` list
is modelled with `[]` for absent. -/
inductive Message where
  | system (content : String) : Message
  | user (content : String) : Message
  | assistant (content : Option String) (toolCalls : List ToolCall) : Message
  | tool (toolCallId : String) (content : String) : Message
  deriving Repr

/-- Token usage triple. -/
structure Usage where
  promptTokens : Nat
  completionTokens : Nat
  totalTokens : Nat
  deriving Repr, DecidableEq

/-- The zero usage the loop starts from. -/
def Usage.zero : Usage := ⟨0, 0, 0⟩

/-- Element-wise usage accumulation (`totalUsage.* += response.usage.*`,
skipped when the response carries no usage). -/
def Usage.add (u : Usage) (v : Option Usage) : Usage :=
  match v with
  | none => u
  | some w => ⟨u.promptTokens + w.promptTokens,
      u.completionTokens + w.completionTokens,
      u.totalTokens + w.totalTokens⟩

/-- Finish classification of a backend response. -/
inductive FinishReason where
  | stop | tool_calls | length | error
  deriving Repr, DecidableEq

/-- A backend generate response: one message, optional usage, finish
reason. -/
structure GenerateResponse where
  message : Message
  usage : Option Usage
  finishReason : FinishReason

/-- A tool (`{name, description, parameters, execute}`).  `execute`
returns either a string (passed through as tool-message content), a
JSON value (stringified), or throws (`Except.error`). -/
structure Tool where
  name : String
  description : String
  parameters : JsonSchema
  execute : Json → Except String Json

/-- Agent configuration: the fields of `AgentConfig` read by the
modelled `run` (the backend is a pure function of the request's message
list; model/temperature/maxTokens only shape the request). -/
structure AgentConfig where
  name : String
  systemPrompt : String
  provider : List Message → Except String GenerateResponse
  tools : List Tool := []
  maxIterations : Option Nat := none

/-- An agent run result (`{response, messages, iterations, usage}`). -/
structure AgentResult where
  response : String
  messages : List Message
  iterations : Nat
  usage : Usage

/-- The `toolCalls ?? []` read of the returned assistant message (a
non-assistant message yields the empty list). -/
def Message.toolCallsOf : Message → List ToolCall
  | Message.assistant _ tcs => tcs
  | _ => []

/-- How the loop turns an `execute` outcome into tool-message content:
strings pass through, other values are JSON-encoded, and a thrown error
becomes `{error: message}`. -/
def serializeToolResult : Except String Json → String
  | Except.ok (Json.str s) => s
  | Except.ok result => jsonStringify result
  | Except.error errorMessage =>
      jsonStringify (Json.obj [("error", Json.str errorMessage)])

/-- `executeToolCall` from `agent.ts`: look the tool up by name; if
unknown, answer a `{error: "Tool 'X' not found"}` tool message; else
invoke `execute` on the provided arguments (no schema validation
happens here) and serialize its outcome. -/
def executeToolCall (tools : List Tool) (toolCall : ToolCall) : Message :=
  match tools.find? fun t => t.name = toolCall.name with
  | none =>
      Message.tool toolCall.id
        (jsonStringify (Json.obj
          [("error", Json.str ("Tool '" ++ toolCall.name ++ "' not found"))]))
  | some tool =>
      Message.tool toolCall.id
        (serializeToolResult (tool.execute toolCall.arguments))

/-- The `while (!state.done && state.iteration < maxIterations)` loop of
`createAgent.run`, with `fuel = maxIterations - iteration`: call the
backend, accumulate usage, append the assistant message; on
`tool_calls`, execute each requested call in order and append the tool
messages; otherwise the loop is done.  Backend errors propagate
(`Except.error`).  Cancellation and hooks are not modelled. -/
def agentLoop (config : AgentConfig) :
    Nat → List Message → Nat → Usage →
    Except String (List Message × Nat × Usage)
  | 0, messages, iteration, usage => Except.ok (messages, iteration, usage)
  | fuel + 1, messages, iteration, usage =>
      match config.provider messages with
      | Except.error e => Except.error e
      | Except.ok response =>
          let usage1 := usage.add response.usage
          let messages1 := messages ++ [response.message]
          if response.finishReason = FinishReason.tool_calls then
            let toolMessages :=
              response.message.toolCallsOf.map (executeToolCall config.tools)
            agentLoop config fuel (messages1 ++ toolMessages)
              (iteration + 1) usage1
          else Except.ok (messages1, iteration + 1, usage1)

/-- `createAgent(config).run(input)` from `agent.ts`: seed the state with
`[system, user]`, run the loop bounded by `maxIterations` (default 10),
and read the final response off the LAST message — its content when it
is an assistant message (`?? ""` for null content), `""` otherwise.
No input validation is performed. -/
def agentRun (config : AgentConfig) (input : String) :
    Except String AgentResult :=
  let maxIterations := config.maxIterations.getD 10
  let initial : List Message :=
    [Message.system config.systemPrompt, Message.user input]
  match agentLoop config maxIterations initial 0 Usage.zero with
  | Except.error e => Except.error e
  | Except.ok (messages, iterations, usage) =>
      let response : String :=
        match messages.getLast? with
        | some (Message.assistant content _) => content.getD ""
        | _ => ""
      Except.ok ⟨response, messages, iterations, usage⟩

/-! ## Shared context (`context.ts`)

JS `Map`s become insertion-ordered association lists; `Map.set` updates
an existing binding in place and appends a new one at the end, exactly
as JS `Map` iteration order prescribes.  The value type of the
key/value store is a parameter `α` (TS stores `unknown`). -/

/-- `Map.set` on an insertion-ordered association list. -/
def mapSet {α : Type} (m : List (String × α)) (key : String) (value : α) :
    List (String × α) :=
  if m.any fun p => p.1 = key then
    m.map fun p => if p.1 = key then (key, value) else p
  else m ++ [(key, value)]

/-- `Map.get` (first — and only — binding of the key). -/
def mapGet {α : Type} (m : List (String × α)) (key : String) : Option α :=
  (m.find? fun p => p.1 = key).map Prod.snd

/-- The mutable state closed over by `createContext`. -/
structure CtxState (α : Type) where
  data : List (String × α)
  history : List Message
  agentMessages : List (String × List Message)
  maxHistory : Nat

/-- `ContextSnapshot` (timestamp included; equality of snapshots is
compared modulo it). -/
structure ContextSnapshot (α : Type) where
  data : List (String × α)
  history : List Message
  agentMessages : List (String × List Message)
  timestamp : Nat

/-- The `ContextConfig` argument of `createContext`. -/
structure ContextConfig (α : Type) where
  initialData : List (String × α) := []
  initialHistory : List Message := []
  maxHistoryLength : Option Nat := none

/-- `createContext` from `context.ts`: seed data and history from the
config; `maxHistoryLength` defaults to 1000; no per-agent messages. -/
def createContext {α : Type} (config : ContextConfig α) : CtxState α :=
  { data := config.initialData
    history := config.initialHistory
    agentMessages := []
    maxHistory := config.maxHistoryLength.getD 1000 }

/-- `getAgentMessages`: the agent's list, or `[]`. -/
def getAgentMessages {α : Type} (c : CtxState α) (agentId : String) :
    List Message :=
  (mapGet c.agentMessages agentId).getD []

/-- `addMessage` from `context.ts`: push onto the history, then shift
one message off the front if the history now exceeds `maxHistory`;
when an agent id is given, also push onto that agent's list. -/
def addMessage {α : Type} (c : CtxState α) (message : Message)
    (agentId : Option String) : CtxState α :=
  let pushed := c.history ++ [message]
  let history1 := if c.maxHistory < pushed.length then pushed.drop 1 else pushed
  let agentMessages1 :=
    match agentId with
    | some id =>
        mapSet c.agentMessages id (getAgentMessages c id ++ [message])
    | none => c.agentMessages
  { c with history := history1, agentMessages := agentMessages1 }

/-- `snapshot()`: a pure copy of data, history and per-agent messages,
stamped with the current clock value. -/
def snapshot {α : Type} (c : CtxState α) (now : Nat) : ContextSnapshot α :=
  { data := c.data
    history := c.history
    agentMessages := c.agentMessages
    timestamp := now }

/-- `restore(s)`: clear each component and re-insert the snapshot's
entries (`Object.entries(...).forEach(data.set ...)`); `maxHistory` is
untouched. -/
def restore {α : Type} (c : CtxState α) (s : ContextSnapshot α) :
    CtxState α :=
  { data := s.data.foldl (fun m p => mapSet m p.1 p.2) []
    history := s.history
    agentMessages :=
      s.agentMessages.foldl (fun m p => mapSet m p.1 p.2) []
    maxHistory := c.maxHistory }

/-- `clone()` from `context.ts`, translated faithfully: create a fresh
context seeded with this context's data and history, then for every
per-agent message walk the agent's messages and call
`cloned.addMessage(msg, id)` — but only while the clone's list for that
agent is still empty (`if (clonedMsgs.length === 0)`). -/
def clone {α : Type} (c : CtxState α) : CtxState α :=
  let cloned := createContext
    { initialData := c.data
      initialHistory := c.history
      maxHistoryLength := some c.maxHistory }
  c.agentMessages.foldl
    (fun cc p =>
      p.2.foldl
        (fun cc msg =>
          if (getAgentMessages cc p.1).length = 0 then
            addMessage cc msg (some p.1)
          else cc)
        cc)
    cloned

/-- Snapshot equality modulo `timestamp`. -/
def snapshotEqModTime {α : Type} (s t : ContextSnapshot α) : Prop :=
  s.data = t.data ∧ s.history = t.history ∧ s.agentMessages = t.agentMessages

/-! ## Parallel conductor (`conductor/strategies/parallel.ts`)

Only the fields read by the modelled logic are kept on `AgentRole`
(`id`, `role`); the bound agent itself and the priority/tags metadata do
not influence merging or error handling.  Concurrency is modelled by an
explicit completion order: the conductor is given the agents' outcomes
as a list in the order they complete, each outcome being `Except.ok` an
agent result or `Except.error` the raised error. -/

/-- An ensemble agent role binding (the fields `mergeResults` and the
error handling read). -/
structure AgentRole where
  id : String
  role : Option String := none

/-- `findAgent`: first role with the given id. -/
def findAgent (agents : List AgentRole) (id : String) : Option AgentRole :=
  agents.find? fun a => a.id = id

/-- The `agent?.role ?? agentId` label used by the mergers. -/
def labelOf (agents : List AgentRole) (agentId : String) : String :=
  match findAgent agents agentId with
  | some a => a.role.getD agentId
  | none => agentId

/-- Merger kind tag. -/
inductive MergerType where
  | concatenate | summarize | selectBest | custom
  deriving Repr, DecidableEq

/-- `ResultMerger`: the summarizer agent is modelled by the function
from the built prompt to its final response; selector and custom merge
are caller-provided functions as in the source. -/
structure ResultMerger where
  type : MergerType
  summarizer : Option (String → String) := none
  selector : Option (List AgentResult → AgentResult) := none
  merge : Option (List (String × AgentResult) → String) := none
  separator : Option String := none

/-- The labelled segment the concatenate merger builds for one result
entry (`"[label]\n" + response`). -/
def concatSegment (agents : List AgentRole) (entry : String × AgentResult) :
    String :=
  "[" ++ labelOf agents entry.1 ++ "]\n" ++ entry.2.response

/-- The labelled line the summarize merger builds for one result entry
(`"[label]: " + response`). -/
def summarizeLine (agents : List AgentRole) (entry : String × AgentResult) :
    String :=
  "[" ++ labelOf agents entry.1 ++ "]: " ++ entry.2.response

/-- `mergeResults` from `parallel.ts`.  `results` is the
insertion-ordered result map (JS `Map` iteration = insertion order = the
order agents completed in).  An empty map merges to `""` before the
merger is consulted; a merger missing its required function throws. -/
def mergeResults (results : List (String × AgentResult))
    (merger : ResultMerger) (agents : List AgentRole) :
    Except String String :=
  if results.isEmpty then Except.ok ""
  else
    match merger.type with
    | MergerType.concatenate =>
        let separator := merger.separator.getD "\n\n---\n\n"
        Except.ok (String.intercalate separator
          (results.map (concatSegment agents)))
    | MergerType.summarize =>
        match merger.summarizer with
        | none => Except.error "Summarizer agent required for summarize merger"
        | some summarizer =>
            let summaryInput := String.intercalate "\n\n"
              (results.map (summarizeLine agents))
            Except.ok (summarizer
              ("Summarize and synthesize the following agent responses:\n\n" ++
                summaryInput))
    | MergerType.selectBest =>
        match merger.selector with
        | none => Except.error "Selector function required for select-best merger"
        | some selector =>
            Except.ok (selector (results.map Prod.snd)).response
    | MergerType.custom =>
        match merger.merge with
        | none => Except.error "Merge function required for custom merger"
        | some merge => Except.ok (merge results)

/-- Conductor error mode (`errorMode`); the config field is optional. -/
inductive ErrorMode where
  | failFast | continueMode | retry
  deriving Repr, DecidableEq

/-- The per-agent bodies of `runWithConcurrencyLimit` in completion
order: successes are inserted into the result map, errors are pushed
onto the error list unless `fail-fast` rethrows immediately (the
rejection then surfaces out of the bulk await). -/
def collectParallelOutcomes (errorMode : Option ErrorMode) :
    List (String × Except String AgentResult) →
    List (String × AgentResult) → List String →
    Except String (List (String × AgentResult) × List String)
  | [], results, errors => Except.ok (results, errors)
  | (id, Except.ok r) :: rest, results, errors =>
      collectParallelOutcomes errorMode rest (results ++ [(id, r)]) errors
  | (_, Except.error e) :: rest, results, errors =>
      if errorMode = some ErrorMode.failFast then Except.error e
      else collectParallelOutcomes errorMode rest results (errors ++ [e])

/-- `createParallelConductor(config).orchestrate`, error handling and
merging: after the fan-out, when errors were recorded, the mode is not
`continue` and no agent produced a result, the FIRST error is rethrown;
otherwise the results are merged. -/
def parallelRun (errorMode : Option ErrorMode) (merger : ResultMerger)
    (agents : List AgentRole)
    (outcomes : List (String × Except String AgentResult)) :
    Except String String :=
  match collectParallelOutcomes errorMode outcomes [] [] with
  | Except.error e => Except.error e
  | Except.ok (results, errors) =>
      match errors with
      | [] => mergeResults results merger agents
      | e :: _ =>
          if errorMode ≠ some ErrorMode.continueMode ∧ results.isEmpty = true then
            Except.error e
          else mergeResults results merger agents

/-! ## Voting conductor (`conductor/strategies/voting.ts`)

The quorum check and the ranked (instant-runoff) branch of
`tallyVotes`.  Ballots are the already-parsed 0-based rank arrays
(`vote.rank`); counts are kept in a JS-`Map`-like first-insertion-order
association list over option indices. -/

/-- Resolve the configured voter ids against the registered agents and
drop the ids that are absent (`.map(findAgent).filter(defined)`).
Defaults to all registered agents. -/
def activeVoters (voters : Option (List String))
    (agents : List AgentRole) : List AgentRole :=
  (voters.getD (agents.map fun a => a.id)).filterMap (findAgent agents)

/-- The quorum threshold `Math.ceil(voters.length * quorum)` (`quorum`
defaults to 0.5), computed over the ACTIVE voter count. -/
def minVoters (activeCount : Nat) (quorum : Option ℚ) : ℤ :=
  Int.ceil ((activeCount : ℚ) * (quorum.getD (1 / 2)))

/-- The voting conductor's quorum test: it fails (`quorum-not-met`)
exactly when the active voter count is below `minVoters` of that same
count. -/
def quorumFails (voters : Option (List String)) (agents : List AgentRole)
    (quorum : Option ℚ) : Prop :=
  ((activeVoters voters agents).length : ℤ) <
    minVoters (activeVoters voters agents).length quorum

instance (voters : Option (List String)) (agents : List AgentRole)
    (quorum : Option ℚ) : Decidable (quorumFails voters agents quorum) := by
  unfold quorumFails; infer_instance

/-- `Map.set(k, (get(k) ?? 0) + 1)` over option indices: bump a count,
keeping first-insertion order. -/
def bumpCount (counts : List (Nat × Nat)) (k : Nat) : List (Nat × Nat) :=
  if counts.any fun p => p.1 = k then
    counts.map fun p => if p.1 = k then (p.1, p.2 + 1) else p
  else counts ++ [(k, 1)]

/-- One ballot's current first choice: the first ranked index whose
option still remains (`ballot.find(i => remaining.has(options[i]))`). -/
def firstChoice (options : List String) (remaining : List String)
    (ballot : List Nat) : Option Nat :=
  ballot.find? fun i =>
    match options.get? i with
    | some opt => remaining.contains opt
    | none => false

/-- First-choice counts of one IRV round, in first-insertion order
(ballots without a surviving choice are skipped). -/
def roundCounts (options : List String) (remaining : List String)
    (ballots : List (List Nat)) : List (Nat × Nat) :=
  ballots.foldl
    (fun counts ballot =>
      match firstChoice options remaining ballot with
      | some i => bumpCount counts i
      | none => counts)
    []

/-- The `count > totalVotes / 2` scan: the first counted option index
holding a strict majority, with its count and the total. -/
def majorityWinner (counts : List (Nat × Nat)) :
    Option (Nat × Nat × Nat) :=
  let totalVotes := (counts.map Prod.snd).sum
  (counts.find? fun p => totalVotes < 2 * p.2).map
    fun p => (p.1, p.2, totalVotes)

/-- The elimination scan (`count < minCount` starting from infinity):
the first counted index with the strictly smallest count, `none` when
nothing was counted (`toEliminate = -1`). -/
def lowestCounted (counts : List (Nat × Nat)) : Option Nat :=
  (counts.foldl
    (fun best p =>
      match best with
      | none => some p
      | some q => if p.2 < q.2 then some p else best)
    none).map Prod.fst

/-- Walk of `setOfOptions`, carrying the elements already seen. -/
def setOfOptionsGo : List String → List String → List String
  | [], _ => []
  | x :: xs, seen =>
      if seen.contains x then setOfOptionsGo xs seen
      else x :: setOfOptionsGo xs (seen ++ [x])

/-- JS `new Set(options)`: deduplicate preserving first occurrence. -/
def setOfOptions (options : List String) : List String :=
  setOfOptionsGo options []

/-- The message the ranked tally emits once the `while` loop is left
(one survivor, or a break on an empty count). -/
def rankedExitMessage (options remaining : List String) : String :=
  let winner := (remaining.head?).getD ((options.head?).getD "")
  "Voting Result (Ranked Choice): " ++ winner ++
    "\n\nWon after eliminating lower-ranked options."

/-- The `while (remainingOptions.size > 1)` loop of the ranked branch of
`tallyVotes`, on fuel: count first choices, declare a strict-majority
winner, else eliminate the lowest-counted option and repeat; an empty
count breaks out of the loop.  A falsy `options[toEliminate]` (the
empty string) skips the `Set.delete`, which in the source leaves the
loop spinning — the model then recurses on unchanged state, so for
well-formed (non-empty-string) options `options.length + 1` fuel is
enough to reach the loop exit. -/
def rankedLoop (options : List String) (ballots : List (List Nat)) :
    Nat → List String → String
  | 0, remaining => rankedExitMessage options remaining
  | fuel + 1, remaining =>
      if remaining.length ≤ 1 then rankedExitMessage options remaining
      else
        let counts := roundCounts options remaining ballots
        match majorityWinner counts with
        | some (winnerIndex, count, totalVotes) =>
            "Voting Result (Ranked Choice): " ++
              ((options.get? winnerIndex).getD "") ++
              "\n\nWon with " ++ toString count ++ "/" ++
              toString totalVotes ++ " votes after instant-runoff."
        | none =>
            match lowestCounted counts with
            | some toEliminate =>
                match options.get? toEliminate with
                | some optToDelete =>
                    if optToDelete = "" then
                      rankedLoop options ballots fuel remaining
                    else
                      rankedLoop options ballots fuel
                        (remaining.filter fun o => o ≠ optToDelete)
                | none => rankedLoop options ballots fuel remaining
            | none => rankedExitMessage options remaining

/-- The `ranked` case of `tallyVotes`: instant-runoff over the ballots'
rank arrays. -/
def tallyRankedVotes (options : List String)
    (ballots : List (List Nat)) : String :=
  rankedLoop options ballots (options.length + 1) (setOfOptions options)

/-! ## Spec-side comparison definitions

These two definitions follow the SPEC's wording (not the code) and are
compared against the embedded code. -/

/-- What `agentRun` actually computes as the final response: the last
message's content when that last message is an assistant message
(`?? ""` for null content), and `""` otherwise. -/
def lastMessageResponse (messages : List Message) : String :=
  match messages.getLast? with
  | some (Message.assistant content _) => content.getD ""
  | _ => ""

/-- Following the spec's words ("the last assistant message's content or
an empty string"): the content of the last message of assistant role
anywhere in the list, or `""` when there is none or its content is
null. -/
def specLastAssistantResponse (messages : List Message) : String :=
  match messages.reverse.find? fun m =>
      match m with
      | Message.assistant _ _ => true
      | _ => false with
  | some (Message.assistant content _) => content.getD ""
  | _ => ""

/-! ## Concrete instances used by the witnesses and counterexamples -/

/-- A stop-finish backend response with content `"Hello!"` and usage
(10, 5, 15). -/
def stopResponse : GenerateResponse :=
  { message := Message.assistant (some "Hello!") []
    usage := some ⟨10, 5, 15⟩
    finishReason := FinishReason.stop }

/-- An agent over a backend that always finishes with `stop`. -/
def stopConfig : AgentConfig :=
  { name := "helper"
    systemPrompt := "You are helpful"
    provider := fun _ => Except.ok stopResponse }

/-- A weather tool whose schema requires a string `location` and whose
`execute` returns the string `"72F"`. -/
def weatherTool : Tool :=
  { name := "get_weather"
    description := "Get the weather"
    parameters :=
      { properties := [("location", PropSchema.ofType "string")]
        required := ["location"]
        additionalProperties := some false }
    execute := fun _ => Except.ok (Json.str "72F") }

/-- A tool call whose arguments object is empty, so it fails the
weather tool's schema (`location` is required). -/
def badArgsCall : ToolCall := ⟨"c1", "get_weather", Json.obj []⟩

/-- An agent bounded to one iteration over a backend that always
requests a tool call (assistant content present alongside the call). -/
def toolCallsConfig : AgentConfig :=
  { name := "weather"
    systemPrompt := "sys"
    provider := fun _ => Except.ok
      { message := Message.assistant (some "Checking the weather...")
          [⟨"c1", "get_weather", Json.obj [("location", Json.str "SF")]⟩]
        usage := none
        finishReason := FinishReason.tool_calls }
    tools := [weatherTool]
    maxIterations := some 1 }

/-- A context (value type `Nat`) holding one message appended under
agent id `"a"`. -/
def oneMsgCtx : CtxState Nat :=
  addMessage (createContext {}) (Message.user "hi") (some "a")

/-- The same context after a second message under agent id `"a"`. -/
def twoMsgCtx : CtxState Nat :=
  addMessage oneMsgCtx (Message.user "again") (some "a")

/-- A concatenate merger with the default separator. -/
def concatMerger : ResultMerger := { type := MergerType.concatenate }

/-- Two ensemble roles with role labels. -/
def demoAgents : List AgentRole := [⟨"a", some "alpha"⟩, ⟨"b", some "beta"⟩]

/-- Result of agent `a`. -/
def resultA : AgentResult := ⟨"A", [], 1, Usage.zero⟩

/-- Result of agent `b`. -/
def resultB : AgentResult := ⟨"B", [], 1, Usage.zero⟩

/-- Every outcome in the list is an error. -/
def allFailed (outcomes : List (String × Except String AgentResult)) : Prop :=
  ∀ p ∈ outcomes, ∃ e, p.2 = Except.error e

/-- The three options of the ranked-IRV scenario. -/
def irvOptions : List String := ["Option A", "Option B", "Option C"]

/-- The five ranked ballots of the scenario, as the 0-based rank arrays
`vote.rank` produced by the vote parser: `[3,1,2]` (first choice option
3, then 1, then 2) parses to `[2,0,1]`, and so on. -/
def irvBallots : List (List Nat) :=
  [[2, 0, 1], [2, 0, 1], [0, 1, 2], [0, 1, 2], [1, 2, 0]]

/-!
# Theorems
-/

/-- C1 (counterexample): at the concrete invalid input `""` — which
`validateInput` classifies as invalid — `run` does not raise an
invalid-input error: it calls the backend and returns its answer. -/
theorem run_accepts_empty_input :
    agentRun stopConfig "" =
      Except.ok ⟨"Hello!",
        [Message.system "You are helpful", Message.user "",
          Message.assistant (some "Hello!") []], 1, ⟨10, 5, 15⟩⟩
    ∧ (validateInput "" none).valid = false :=
  ⟨rfl, rfl⟩

/-- C1 (amended): `validateInput` classifies empty and over-long input
as invalid (against `maxLength`, default 100000), but `createAgent.run`
never consults it: for EVERY input string — conforming or not — the run
proceeds straight to the backend and succeeds. -/
theorem run_skips_input_validation :
    (∀ input : String, agentRun stopConfig input =
      Except.ok ⟨"Hello!",
        [Message.system "You are helpful", Message.user input,
          Message.assistant (some "Hello!") []], 1, ⟨10, 5, 15⟩⟩)
    ∧ (validateInput "" none).valid = false
    ∧ (validateInput "aaa" (some 2)).valid = false :=
  ⟨fun _ => rfl, rfl, rfl⟩

/-- C4 (counterexample): the empty arguments object fails the weather
tool's schema (`location` required), yet `executeToolCall` still invokes
`execute` — the tool message carries the execution result `"72F"`, not a
validation error. -/
theorem tool_executes_despite_invalid_args :
    (validateJsonSchema (fun _ _ => true) (Json.obj [])
      weatherTool.parameters).valid = false
    ∧ executeToolCall [weatherTool] badArgsCall = Message.tool "c1" "72F" :=
  ⟨rfl, rfl⟩

/-- C4 (amended): `validateJsonSchema` implements the advertised
checks, but `executeToolCall` never consults it: whenever the tool is
found by name, `execute` is invoked on the provided arguments
unconditionally and its outcome is serialized into the tool message. -/
theorem execute_called_without_validation (tools : List Tool)
    (toolCall : ToolCall) (tool : Tool)
    (h : (tools.find? fun t => t.name = toolCall.name) = some tool) :
    executeToolCall tools toolCall =
      Message.tool toolCall.id
        (serializeToolResult (tool.execute toolCall.arguments)) := by
  unfold executeToolCall
  rw [h]

/-- Witness for `execute_called_without_validation` at the concrete
schema-violating call. -/
theorem execute_called_without_validation_witness :
    executeToolCall [weatherTool] badArgsCall =
      Message.tool badArgsCall.id
        (serializeToolResult (weatherTool.execute badArgsCall.arguments)) :=
  execute_called_without_validation [weatherTool] badArgsCall weatherTool rfl

/-- C3 (counterexample): a run that stops because `maxIterations` is
reached right after a tool-calls round ends with a tool message last;
the returned response is `""` although the last assistant message in
the final list has content `"Checking the weather..."`. -/
theorem maxed_run_ignores_assistant_content :
    agentRun toolCallsConfig "weather?" =
      Except.ok ⟨"",
        [Message.system "sys", Message.user "weather?",
          Message.assistant (some "Checking the weather...")
            [⟨"c1", "get_weather", Json.obj [("location", Json.str "SF")]⟩],
          Message.tool "c1" "72F"], 1, Usage.zero⟩
    ∧ specLastAssistantResponse
        [Message.system "sys", Message.user "weather?",
          Message.assistant (some "Checking the weather...")
            [⟨"c1", "get_weather", Json.obj [("location", Json.str "SF")]⟩],
          Message.tool "c1" "72F"] = "Checking the weather..."
    ∧ ("" : String) ≠ "Checking the weather..." :=
  ⟨rfl, rfl, by decide⟩

/-- C3 (amended): the returned response is computed from the final
list's LAST message — its content when it is an assistant message
(empty for null), `""` otherwise — not from the last assistant message
anywhere in the list. -/
theorem agent_response_is_last_message_content (config : AgentConfig)
    (input : String) (r : AgentResult)
    (h : agentRun config input = Except.ok r) :
    r.response = lastMessageResponse r.messages := by
  unfold agentRun at h
  cases hloop : agentLoop config (config.maxIterations.getD 10)
      [Message.system config.systemPrompt, Message.user input] 0 Usage.zero with
  | error e =>
      simp only [hloop] at h
      exact Except.noConfusion h
  | ok t =>
      obtain ⟨messages, iterations, usage⟩ := t
      simp only [hloop, Except.ok.injEq] at h
      subst h
      rfl

/-- Witness for `agent_response_is_last_message_content` at a concrete
one-shot run. -/
theorem agent_response_is_last_message_content_witness :
    (⟨"Hello!",
      [Message.system "You are helpful", Message.user "hi",
        Message.assistant (some "Hello!") []], 1,
      (⟨10, 5, 15⟩ : Usage)⟩ : AgentResult).response =
      lastMessageResponse
        [Message.system "You are helpful", Message.user "hi",
          Message.assistant (some "Hello!") []] :=
  agent_response_is_last_message_content stopConfig "hi" _ rfl

/-- C5 (counterexample): on the scenario's ballots the first IRV round
counts 2 first-place votes for option 3 (index 2), 2 for option 1
(index 0) and 1 for option 2 (index 1); the eliminated option is option
2 (index 1), NOT option 3, and the declared winner is option 3
(`Option C`), not option 1. -/
theorem ranked_scenario_refuted :
    roundCounts irvOptions (setOfOptions irvOptions) irvBallots =
      [(2, 2), (0, 2), (1, 1)]
    ∧ lowestCounted (roundCounts irvOptions (setOfOptions irvOptions)
        irvBallots) = some 1
    ∧ some (1 : Nat) ≠ some 2
    ∧ tallyRankedVotes irvOptions irvBallots ≠
        "Voting Result (Ranked Choice): Option A\n\nWon with 3/5 votes after instant-runoff." :=
  ⟨rfl, rfl, by decide, by decide⟩

/-- C5 (amended): on the scenario's ballots the tally eliminates option
2 (1 first-place vote), its ballot transfers to option 3, and option 3
wins with 3 of 5 votes in the runoff. -/
theorem ranked_scenario_amended :
    roundCounts irvOptions (setOfOptions irvOptions) irvBallots =
      [(2, 2), (0, 2), (1, 1)]
    ∧ lowestCounted [(2, 2), (0, 2), (1, 1)] = some 1
    ∧ roundCounts irvOptions ["Option A", "Option C"] irvBallots =
        [(2, 3), (0, 2)]
    ∧ majorityWinner [(2, 3), (0, 2)] = some (2, 3, 5)
    ∧ tallyRankedVotes irvOptions irvBallots =
        "Voting Result (Ranked Choice): Option C\n\nWon with 3/5 votes after instant-runoff." :=
  ⟨rfl, rfl, rfl, rfl, rfl⟩

/-- C6 (code bug): `clone()` is not a faithful copy.  For a context
holding one message under agent id `a`, the clone's history carries the
message TWICE (the per-agent walk re-appends it through `addMessage`),
so the clone's snapshot differs from the original's even modulo
timestamp; and an agent with two messages keeps only its first in the
clone. -/
theorem clone_not_a_copy :
    (clone oneMsgCtx).history = [Message.user "hi", Message.user "hi"]
    ∧ oneMsgCtx.history = [Message.user "hi"]
    ∧ ¬ snapshotEqModTime (snapshot (clone oneMsgCtx) 0) (snapshot oneMsgCtx 0)
    ∧ getAgentMessages (clone twoMsgCtx) "a" = [Message.user "hi"]
    ∧ getAgentMessages twoMsgCtx "a" =
        [Message.user "hi", Message.user "again"] := by
  refine ⟨rfl, rfl, ?_, rfl, rfl⟩
  intro h
  have hh : (clone oneMsgCtx).history = oneMsgCtx.history := h.2.1
  have h2 : ([Message.user "hi", Message.user "hi"] : List Message) =
      [Message.user "hi"] := by
    calc ([Message.user "hi", Message.user "hi"] : List Message)
        = (clone oneMsgCtx).history := rfl
      _ = oneMsgCtx.history := hh
      _ = [Message.user "hi"] := rfl
  have hlen := congrArg List.length h2
  simp at hlen

/-- C9 (counterexample): two parallel runs whose result maps hold the
SAME id-to-result associations, populated in different completion
orders, concatenate to DIFFERENT merged outputs — the merger iterates
the result map in insertion order. -/
theorem merge_depends_on_completion_order :
    ([("a", resultA), ("b", resultB)]).Perm [("b", resultB), ("a", resultA)]
    ∧ mergeResults [("a", resultA), ("b", resultB)] concatMerger demoAgents =
        Except.ok "[alpha]\nA\n\n---\n\n[beta]\nB"
    ∧ mergeResults [("b", resultB), ("a", resultA)] concatMerger demoAgents =
        Except.ok "[beta]\nB\n\n---\n\n[alpha]\nA"
    ∧ ("[alpha]\nA\n\n---\n\n[beta]\nB" : String) ≠
        "[beta]\nB\n\n---\n\n[alpha]\nA" :=
  ⟨List.Perm.swap _ _ _, rfl, rfl, by decide⟩

/-- C9 (amended): the merged output is a deterministic function of the
insertion-ordered (completion-ordered) sequence of id-result pairs; for
the concatenate merger, permuting the completion order permutes the
labelled segments (never changes their multiset), but the joined string
can change. -/
theorem concat_segments_perm (agents : List AgentRole)
    (l1 l2 : List (String × AgentResult)) (h : l1.Perm l2) :
    (l1.map (concatSegment agents)).Perm (l2.map (concatSegment agents)) :=
  h.map _

/-- Witness for `concat_segments_perm` at the two concrete completion
orders. -/
theorem concat_segments_perm_witness :
    (([("a", resultA), ("b", resultB)]).map (concatSegment demoAgents)).Perm
      (([("b", resultB), ("a", resultA)]).map (concatSegment demoAgents)) :=
  concat_segments_perm demoAgents _ _ (List.Perm.swap _ _ _)

/-- C2 (counterexample): a parallel run with `errorMode = "continue"`
in which every selected agent fails does NOT raise the first error — it
returns the empty merge of the empty result set. -/
theorem parallel_continue_all_failed_no_raise :
    parallelRun (some ErrorMode.continueMode) concatMerger demoAgents
        [("a", Except.error "boom"), ("b", Except.error "bang")] =
      Except.ok ""
    ∧ ∀ e, parallelRun (some ErrorMode.continueMode) concatMerger demoAgents
        [("a", Except.error "boom"), ("b", Except.error "bang")] ≠
      Except.error e :=
  ⟨rfl, fun _ h => Except.noConfusion h⟩

/-- When no outcome succeeds and the mode does not fail fast, the
collection pass keeps the result map empty and accumulates every error
behind the ones already recorded. -/
theorem collect_all_failed (mode : Option ErrorMode)
    (hmode : mode ≠ some ErrorMode.failFast) :
    ∀ outcomes : List (String × Except String AgentResult),
      allFailed outcomes → ∀ errs : List String, ∃ more,
        collectParallelOutcomes mode outcomes [] errs =
          Except.ok ([], errs ++ more) := by
  intro outcomes
  induction outcomes with
  | nil => exact fun _ errs => ⟨[], by simp [collectParallelOutcomes]⟩
  | cons p rest ih =>
      rintro hall errs
      obtain ⟨id, out⟩ := p
      obtain ⟨e, he⟩ := hall (id, out) (List.mem_cons_self _ _)
      simp only at he
      subst he
      obtain ⟨more, hm⟩ := ih (fun q hq => hall q (List.mem_cons_of_mem _ hq))
        (errs ++ [e])
      exact ⟨e :: more, by
        simp only [collectParallelOutcomes, if_neg hmode, hm,
          List.append_assoc, List.singleton_append]⟩

/-- C2 (amended): when every selected agent fails, the conductor raises
the FIRST error only when `errorMode` is not `continue`; with
`errorMode = "continue"` the all-failure run does not raise — it
returns the empty merge of the empty result set. -/
theorem parallel_all_failed (mode : Option ErrorMode)
    (merger : ResultMerger) (agents : List AgentRole) (id : String)
    (e : String) (rest : List (String × Except String AgentResult))
    (hall : allFailed rest) :
    parallelRun mode merger agents ((id, Except.error e) :: rest) =
      if mode = some ErrorMode.continueMode then Except.ok ""
      else Except.error e := by
  by_cases hf : mode = some ErrorMode.failFast
  · subst hf
    simp [parallelRun, collectParallelOutcomes]
  · obtain ⟨more, hm⟩ := collect_all_failed mode hf rest hall [e]
    unfold parallelRun
    simp only [collectParallelOutcomes, if_neg hf, List.nil_append, hm,
      List.singleton_append]
    by_cases hc : mode = some ErrorMode.continueMode
    · simp [hc, mergeResults]
    · simp [hc]

/-- Witness for `parallel_all_failed`: with `continue` mode and two
failing agents the run returns `Except.ok ""`. -/
theorem parallel_all_failed_witness :
    parallelRun (some ErrorMode.continueMode) concatMerger demoAgents
        [("x", Except.error "boom"), ("y", Except.error "bang")] =
      Except.ok "" := by
  have h := parallel_all_failed (some ErrorMode.continueMode) concatMerger
    demoAgents "x" "boom" [("y", Except.error "bang")]
    (by rintro p hp; rw [List.mem_singleton] at hp; subst hp
        exact ⟨"bang", rfl⟩)
  simpa using h

/-- `Map.set` of a key absent from the map appends the binding. -/
theorem mapSet_append {α : Type} (m : List (String × α)) (k : String) (v : α)
    (h : ∀ p ∈ m, p.1 ≠ k) : mapSet m k v = m ++ [(k, v)] := by
  have hneg : ¬((m.any fun p => p.1 = k) = true) := by
    rw [List.any_eq_true]
    rintro ⟨p, hp, hpk⟩
    exact h p hp (by simpa using hpk)
  unfold mapSet
  rw [if_neg hneg]

/-- Re-inserting an association list with pairwise-distinct keys into an
empty JS map reproduces it behind the accumulator. -/
theorem foldl_mapSet_eq {α : Type} :
    ∀ l acc : List (String × α), (l.map Prod.fst).Nodup →
      (∀ p ∈ l, ∀ q ∈ acc, q.1 ≠ p.1) →
      l.foldl (fun m p => mapSet m p.1 p.2) acc = acc ++ l := by
  intro l
  induction l with
  | nil => intro acc _ _; simp
  | cons x xs ih =>
      intro acc hnd hdis
      simp only [List.foldl_cons]
      have hx : mapSet acc x.1 x.2 = acc ++ [x] :=
        mapSet_append acc x.1 x.2 fun q hq => hdis x (List.mem_cons_self _ _) q hq
      rw [hx]
      simp only [List.map_cons, List.nodup_cons] at hnd
      have hdis2 : ∀ p ∈ xs, ∀ q ∈ acc ++ [x], q.1 ≠ p.1 := by
        intro p hp q hq
        rcases List.mem_append.mp hq with hq | hq
        · exact hdis p (List.mem_cons_of_mem _ hp) q hq
        · rw [List.mem_singleton] at hq
          subst hq
          intro hqe
          exact hnd.1 (hqe ▸ List.mem_map_of_mem Prod.fst hp)
      rw [ih (acc ++ [x]) hnd.2 hdis2]
      simp

/-- C7: after `restore(s)` — for a snapshot whose data and per-agent
maps carry pairwise-distinct keys, as every snapshot taken from a
context does, both being produced from JS records — a subsequent
`snapshot()` equals `s` in data, history and per-agent messages, i.e.
equal modulo timestamp. -/
theorem restore_snapshot_roundtrip {α : Type} (c : CtxState α)
    (s : ContextSnapshot α) (now : Nat)
    (hd : (s.data.map Prod.fst).Nodup)
    (ha : (s.agentMessages.map Prod.fst).Nodup) :
    snapshotEqModTime (snapshot (restore c s) now) s := by
  unfold snapshot restore snapshotEqModTime
  refine ⟨?_, rfl, ?_⟩
  · simpa using foldl_mapSet_eq s.data [] hd (by intro p _ q hq; simp at hq)
  · simpa using foldl_mapSet_eq s.agentMessages [] ha
      (by intro p _ q hq; simp at hq)

/-- Witness for `restore_snapshot_roundtrip` at a concrete context and
snapshot. -/
theorem restore_snapshot_roundtrip_witness :
    snapshotEqModTime
      (snapshot (restore (createContext ({} : ContextConfig Nat))
        ⟨[("k", 1)], [Message.user "m"], [("a", [Message.user "m"])], 5⟩) 0)
      ⟨[("k", 1)], [Message.user "m"], [("a", [Message.user "m"])], 5⟩ :=
  restore_snapshot_roundtrip _ _ 0 (by simp) (by simp)

/-- One `addMessage` step on a history that is the length-capped suffix
of the stream `s` yields the length-capped suffix of `s ++ [m]`. -/
theorem histStep_drop (s : List Message) (m : Message) (M : Nat) :
    (if M < (s.drop (s.length - M) ++ [m]).length
      then (s.drop (s.length - M) ++ [m]).drop 1
      else s.drop (s.length - M) ++ [m]) =
      (s ++ [m]).drop (s.length + 1 - M) := by
  have hlen : (s.drop (s.length - M)).length = s.length - (s.length - M) :=
    List.length_drop _ _
  by_cases hM : s.length < M
  · have h0 : s.length - M = 0 := by omega
    have h1 : s.length + 1 - M = 0 := by omega
    rw [h0, List.drop_zero, h1, List.drop_zero,
      if_neg (by simp only [List.length_append, List.length_singleton]; omega)]
  · have hlen2 : (s.drop (s.length - M)).length = M := by omega
    have hcond : M < (s.drop (s.length - M) ++ [m]).length := by
      simp only [List.length_append, List.length_singleton, hlen2]
      omega
    rw [if_pos hcond]
    rw [List.drop_append_eq_append_drop, List.drop_append_eq_append_drop,
      List.drop_drop, hlen2]
    have e1 : s.length - M + 1 = s.length + 1 - M := by omega
    have e2 : 1 - M = s.length + 1 - M - s.length := by omega
    rw [e1, e2]

/-- Folding `addMessage` over any operation sequence keeps the history
equal to the length-capped suffix of the full append stream. -/
theorem fold_addMessage_history {α : Type} :
    ∀ (ops : List (Message × Option String)) (c : CtxState α)
      (s : List Message),
      c.history = s.drop (s.length - c.maxHistory) →
      (ops.foldl (fun cc p => addMessage cc p.1 p.2) c).history =
        (s ++ ops.map Prod.fst).drop
          ((s ++ ops.map Prod.fst).length - c.maxHistory) := by
  intro ops
  induction ops with
  | nil => intro c s hc; simpa using hc
  | cons op ops ih =>
      intro c s hc
      simp only [List.foldl_cons, List.map_cons]
      have hstep : (addMessage c op.1 op.2).history =
          (s ++ [op.1]).drop ((s ++ [op.1]).length - c.maxHistory) := by
        show (if c.maxHistory < (c.history ++ [op.1]).length then
            (c.history ++ [op.1]).drop 1 else c.history ++ [op.1]) = _
        rw [hc]
        simpa [List.length_append] using histStep_drop s op.1 c.maxHistory
      have hmax : (addMessage c op.1 op.2).maxHistory = c.maxHistory := rfl
      have hrec := ih (addMessage c op.1 op.2) (s ++ [op.1])
        (by rw [hstep, hmax])
      rw [hmax] at hrec
      simpa [List.append_assoc] using hrec

/-- C8: for a context whose initial history fits within
`maxHistoryLength` (default 1000), after any sequence of `addMessage`
calls the history is exactly the most recent messages of the append
stream in insertion order (FIFO trimming from the front), and its
length never exceeds `maxHistoryLength`. -/
theorem context_history_trim {α : Type} (config : ContextConfig α)
    (ops : List (Message × Option String))
    (h : config.initialHistory.length ≤ config.maxHistoryLength.getD 1000) :
    (ops.foldl (fun cc p => addMessage cc p.1 p.2)
        (createContext config)).history =
      (config.initialHistory ++ ops.map Prod.fst).drop
        ((config.initialHistory ++ ops.map Prod.fst).length -
          config.maxHistoryLength.getD 1000)
    ∧ (ops.foldl (fun cc p => addMessage cc p.1 p.2)
        (createContext config)).history.length ≤
        config.maxHistoryLength.getD 1000 := by
  have hfold := fold_addMessage_history ops (createContext config)
    config.initialHistory (by
      show config.initialHistory =
        config.initialHistory.drop (config.initialHistory.length -
          config.maxHistoryLength.getD 1000)
      have h0 : config.initialHistory.length -
          config.maxHistoryLength.getD 1000 = 0 := by omega
      rw [h0, List.drop_zero])
  have hmax : (createContext config).maxHistory =
      config.maxHistoryLength.getD 1000 := rfl
  rw [hmax] at hfold
  refine ⟨hfold, ?_⟩
  rw [hfold, List.length_drop]
  omega

/-- Witness for `context_history_trim`: capacity 2, three appends, the
history retains the last two messages. -/
theorem context_history_trim_witness :
    ([(Message.user "m1", (none : Option String)), (Message.user "m2", none),
        (Message.user "m3", none)].foldl (fun cc p => addMessage cc p.1 p.2)
      (createContext ({ maxHistoryLength := some 2} : ContextConfig Nat))).history =
      [Message.user "m1", Message.user "m2", Message.user "m3"].drop 1
    ∧ ([(Message.user "m1", (none : Option String)), (Message.user "m2", none),
        (Message.user "m3", none)].foldl (fun cc p => addMessage cc p.1 p.2)
      (createContext ({ maxHistoryLength := some 2} : ContextConfig Nat))).history.length ≤ 2 :=
  context_history_trim { maxHistoryLength := some 2 } _ (by decide)

/-- C10: whenever the configured quorum is at most 1 (the default is
0.5), the voting conductor's quorum check can never fail — both sides
of the comparison are computed from the same active-voter count, no
matter how many configured voter ids are absent from the registered
agents. -/
theorem quorum_check_unreachable (voters : Option (List String))
    (agents : List AgentRole) (quorum : Option ℚ)
    (hq : quorum.getD (1 / 2) ≤ 1) :
    ¬ quorumFails voters agents quorum := by
  unfold quorumFails minVoters
  intro hlt
  set q := quorum.getD (1 / 2) with hqdef
  set n := (activeVoters voters agents).length with hndef
  have h1 : (n : ℚ) * q ≤ (n : ℚ) := by
    calc (n : ℚ) * q ≤ (n : ℚ) * 1 :=
          mul_le_mul_of_nonneg_left hq (by positivity)
      _ = (n : ℚ) := mul_one _
  have h2 := Int.ceil_mono h1
  rw [Int.ceil_natCast] at h2
  omega

/-- Witness for `quorum_check_unreachable`: three configured voters of
which only two are registered, default quorum — the check passes. -/
theorem quorum_check_unreachable_witness :
    ¬ quorumFails (some ["a", "b", "c"]) [⟨"a", none⟩, ⟨"b", none⟩] none :=
  quorum_check_unreachable _ _ _ (by norm_num)

end Chorus
